import Mathlib

/-!
Verification of the JobSniper AI core: the SQLite-backed history store
(`src/utils/sqlite_logger.py`) and the validation / configuration-gating
layer (`utils/validators.py`, present in the repository only through its
test suite `src/tests/test_validators.py`).

The store is embedded shallowly: the `history.db` file becomes an explicit
`Db` state, each Python function becomes a Lean function threading that
state, and the `try/except` wrappers of the Python code become an explicit
`fault` flag — when `fault = true` the body raises and the `except` clause
runs (log and return a neutral value), mirroring the source's
catch-log-continue policy.  SQLite's `AUTOINCREMENT` primary key is
modelled by a per-table counter that is the id handed to the next insert.
-/

namespace JobSniper

/-- A row of the `resume_logs` table (schema from `init_db`,
`src/utils/sqlite_logger.py` lines 11-22). -/
structure ResumeRow where
  id : Nat
  timestamp : String
  name : String
  skills : String
  education : String
  experience : String
  match_percent : Int
  job_title : String
  feedback_summary : String
  suggested_jobs : String
deriving DecidableEq

/-- A row of the `agent_interactions` table (schema from `log_interaction`,
`src/utils/sqlite_logger.py` lines 131-138). -/
structure InteractionRow where
  id : Nat
  timestamp : String
  agent_name : String
  action : String
  input_data : String
  output_data : String
deriving DecidableEq

/-- The state of `history.db`.  A table is `none` while it has not been
created.  `nextResumeId` / `nextInteractionId` model the `AUTOINCREMENT`
sequence of each table; `now` is the value `datetime.datetime.now().isoformat()`
would produce at the time of the call. -/
structure Db where
  resume_logs : Option (List ResumeRow)
  agent_interactions : Option (List InteractionRow)
  nextResumeId : Nat
  nextInteractionId : Nat
  now : String
deriving DecidableEq

/-- The `parsed_data` dictionary consumed by `save_to_db`: each key may be
absent (`.get` with a default).  The Python value under `"skills"` is either
a list (joined with `","`) or some other value (passed through `str`). -/
inductive SkillsVal where
  | list (l : List String)
  | other (s : String)
deriving DecidableEq

structure ParsedData where
  name : Option String
  skills : Option SkillsVal
  education : Option String
  experience : Option String
deriving DecidableEq

/-- The `match_result` argument of `save_to_db`: either a dictionary with
optional keys, or a non-dict value (every `isinstance(match_result, dict)`
guard then fails). -/
structure MatchDict where
  match_percent : Option Int
  job_roles : Option (List String)
  job_title : Option String
  feedback_summary : Option String
deriving DecidableEq

inductive MatchResult where
  | dict (d : MatchDict)
  | nonDict
deriving DecidableEq

/-- Python's `",".join(l)`. -/
def joinComma (l : List String) : String :=
  String.intercalate "," l

/-- Python's string slice `s[:5000]` used by `log_interaction` to cap the
stored interaction payloads. -/
def truncate5000 (s : String) : String :=
  ⟨s.data.take 5000⟩

/-- `init_db` (`src/utils/sqlite_logger.py` lines 6-26): issues
`CREATE TABLE IF NOT EXISTS resume_logs (...)` and commits.  Creating an
existing table is a no-op; any exception is logged and swallowed, leaving
the state unchanged.  Note that `init_db` touches only `resume_logs`:
the `agent_interactions` table is created by `log_interaction` itself. -/
def init_db (db : Db) (fault : Bool) : Db :=
  if fault then db
  else
    match db.resume_logs with
    | some _ => db
    | none => ⟨some [], db.agent_interactions, db.nextResumeId, db.nextInteractionId, db.now⟩

/-- The `resume_logs` row built by the `INSERT` of `save_to_db`
(lines 36-72): defaults for missing dictionary keys, comma-joined lists,
the id drawn from the autoincrement sequence and the timestamp taken from
the store's clock — the caller supplies neither. -/
def mkResumeRow (db : Db) (parsed_data : ParsedData) (match_result : MatchResult) : ResumeRow :=
  let name := parsed_data.name.getD "Unknown"
  let skills_str :=
    match parsed_data.skills.getD (SkillsVal.list []) with
    | SkillsVal.list l => joinComma l
    | SkillsVal.other s => s
  let education := parsed_data.education.getD "Unknown"
  let experience := parsed_data.experience.getD "Unknown"
  let match_percent :=
    match match_result with
    | MatchResult.dict d => d.match_percent.getD 0
    | MatchResult.nonDict => 0
  let suggested_jobs :=
    match match_result with
    | MatchResult.dict d => joinComma (d.job_roles.getD [])
    | MatchResult.nonDict => ""
  let job_title :=
    match match_result with
    | MatchResult.dict d => d.job_title.getD ""
    | MatchResult.nonDict => ""
  let feedback_summary :=
    match match_result with
    | MatchResult.dict d => d.feedback_summary.getD ""
    | MatchResult.nonDict => ""
  ⟨db.nextResumeId, db.now, name, skills_str, education, experience,
   match_percent, job_title, feedback_summary, suggested_jobs⟩

/-- `save_to_db` (lines 29-77).  An `INSERT` into a missing table raises
`sqlite3.OperationalError`; the `except` clause logs it and the uncommitted
work is discarded, so the state is unchanged.  On success the new row is
appended and the autoincrement sequence advances. -/
def save_to_db (parsed_data : ParsedData) (match_result : MatchResult)
    (db : Db) (fault : Bool) : Db :=
  if fault then db
  else
    match db.resume_logs with
    | none => db
    | some rows =>
        ⟨some (rows ++ [mkResumeRow db parsed_data match_result]),
         db.agent_interactions, db.nextResumeId + 1, db.nextInteractionId, db.now⟩

/-- `ORDER BY id DESC` on the `resume_logs` table. -/
def idGE (a b : ResumeRow) : Prop :=
  b.id ≤ a.id

instance : DecidableRel idGE :=
  fun a b => Nat.decLe b.id a.id

instance : IsTotal ResumeRow idGE :=
  ⟨fun a b => Nat.le_total b.id a.id⟩

instance : IsTrans ResumeRow idGE :=
  ⟨fun _ _ _ h₁ h₂ => Nat.le_trans h₂ h₁⟩

def sortDescById (rows : List ResumeRow) : List ResumeRow :=
  List.insertionSort idGE rows

/-- `get_history` (lines 80-91): `SELECT * FROM resume_logs ORDER BY id DESC
LIMIT ?`.  A failure — including the `no such table` error when the table
was never created — is logged and `[]` is returned. -/
def get_history (limit : Nat) (db : Db) (fault : Bool) : List ResumeRow :=
  if fault then []
  else
    match db.resume_logs with
    | none => []
    | some rows => (sortDescById rows).take limit

/-- `get_resume_details` (lines 94-121): `SELECT * FROM resume_logs WHERE
id = ?`, returning `None` when absent or on any error. -/
def get_resume_details (resume_id : Nat) (db : Db) (fault : Bool) : Option ResumeRow :=
  if fault then none
  else
    match db.resume_logs with
    | none => none
    | some rows => rows.find? (fun r => r.id == resume_id)

/-- The `agent_interactions` row built by `log_interaction` (lines 141-154):
payloads pass through `str(...)[:5000]`, id and timestamp come from the
store. -/
def mkInteractionRow (db : Db) (agent_name action input_data output_data : String) :
    InteractionRow :=
  ⟨db.nextInteractionId, db.now, agent_name, action,
   truncate5000 input_data, truncate5000 output_data⟩

/-- `log_interaction` (lines 124-159): first issues
`CREATE TABLE IF NOT EXISTS agent_interactions (...)`, then inserts the
row; any exception is logged and the state is left unchanged. -/
def log_interaction (agent_name action input_data output_data : String)
    (db : Db) (fault : Bool) : Db :=
  if fault then db
  else
    let rows := db.agent_interactions.getD []
    ⟨db.resume_logs,
     some (rows ++ [mkInteractionRow db agent_name action input_data output_data]),
     db.nextResumeId, db.nextInteractionId + 1, db.now⟩

/-- Well-formedness of a table: ids are pairwise distinct and all below the
autoincrement sequence value.  Both facts are maintained by SQLite for an
`INTEGER PRIMARY KEY AUTOINCREMENT` column. -/
def ResumeTableWF (db : Db) : Prop :=
  ∀ rows, db.resume_logs = some rows →
    (rows.map ResumeRow.id).Nodup ∧ ∀ r ∈ rows, r.id < db.nextResumeId

def InteractionTableWF (db : Db) : Prop :=
  ∀ rows, db.agent_interactions = some rows →
    (rows.map InteractionRow.id).Nodup ∧ ∀ r ∈ rows, r.id < db.nextInteractionId

def DbWF (db : Db) : Prop :=
  ResumeTableWF db ∧ InteractionTableWF db

/-- Modelled from the spec: `utils/validators.py` (class `APIKeyValidator`,
method `validate_gemini_key`) is not present under `src/`; only its tests
are.  Spec §4.3: true iff the key is non-null, non-empty, starts with the
literal prefix `"AIza"`, and has length ≥ 30; `None` and `""` return
false. -/
def validate_gemini_key : Option String → Bool
  | none => false
  | some s => !s.data.isEmpty && "AIza".data.isPrefixOf s.data && decide (30 ≤ s.length)

/-- Modelled from the spec: `utils/validators.py` (class `APIKeyValidator`,
method `validate_mistral_key`) is not present under `src/`.  Spec §4.3:
true iff the key is non-null, matches an alphanumeric pattern with no
whitespace or special punctuation, and has length ≥ a fixed minimum; the
minimum is taken as 32, the length of the accepted key in the test suite
(`src/tests/test_validators.py` line 92). -/
def validate_mistral_key : Option String → Bool
  | none => false
  | some s => s.data.all Char.isAlphanum && decide (32 ≤ s.length)

/-- Modelled from the spec: `utils/validators.py` (class `EmailValidator`,
method `validate_email_address`) is not present under `src/`.  Spec §4.4:
local-part@domain with at least one dot in the domain, no embedded
whitespace. -/
def validate_email_address (s : String) : Bool :=
  match s.splitOn "@" with
  | [l, d] => !l.data.isEmpty && d.data.contains '.' && !s.data.contains ' '
  | _ => false

/-- Modelled from the spec: `utils/validators.py` (class `EmailValidator`,
method `validate_email_config`) is not present under `src/`.  Spec §4.4:
fails when either field is a known placeholder literal, when the email
fails the address check, or when the password is empty. -/
def validate_email_config (email password : Option String) : Bool :=
  match email, password with
  | some e, some p =>
      validate_email_address e && !(e == "your_gmail@gmail.com") &&
        !(p == "your_app_password") && !p.data.isEmpty
  | _, _ => false

/-- The configuration mapping consumed by `validate_config`, restricted to
the keys the spec's validation rules read (optional pass-through feature
flags are outside every claim and omitted). -/
structure Config where
  gemini_api_key : Option String
  mistral_api_key : Option String
  sender_email : Option String
  sender_password : Option String
deriving DecidableEq

structure ConfigResult where
  valid : Bool
  errors : List String
  ai_providers : List String
  features_enabled : List String
deriving DecidableEq

/-- Modelled from the spec: `utils/validators.py` (class `ConfigValidator`,
method `validate_config`) is not present under `src/`.  Spec §4.5: each key
that validates adds its provider to `ai_providers`; the error
`"No valid AI providers configured"` (and `valid = false`) is produced
exactly when `ai_providers` ends up empty; a valid email configuration
adds `"email_reports"` to `features_enabled`, and email misconfiguration
never invalidates the whole config. -/
def validate_config (c : Config) : ConfigResult :=
  let providers :=
    (if validate_gemini_key c.gemini_api_key then ["gemini"] else []) ++
      (if validate_mistral_key c.mistral_api_key then ["mistral"] else [])
  let errors := if providers.isEmpty then ["No valid AI providers configured"] else []
  let features :=
    if validate_email_config c.sender_email c.sender_password then ["email_reports"] else []
  ⟨!providers.isEmpty, errors, providers, features⟩

/-! ### Helper lemmas about the `ORDER BY id DESC` model -/

theorem sortDescById_perm (rows : List ResumeRow) : List.Perm (sortDescById rows) rows :=
  List.perm_insertionSort idGE rows

theorem sortDescById_pairwise (rows : List ResumeRow) :
    (sortDescById rows).Pairwise idGE :=
  List.sorted_insertionSort idGE rows

theorem pairwise_lt_of_le_nodup :
    ∀ l : List ResumeRow, l.Pairwise idGE → (l.map ResumeRow.id).Nodup →
      l.Pairwise (fun a b => b.id < a.id) := by
  intro l
  induction l with
  | nil => intro _ _; exact List.Pairwise.nil
  | cons a t ih =>
      intro hp hnd
      rw [List.pairwise_cons] at hp
      rw [List.map_cons, List.nodup_cons] at hnd
      refine List.Pairwise.cons ?_ (ih hp.2 hnd.2)
      intro b hb
      refine lt_of_le_of_ne (hp.1 b hb) ?_
      intro heq
      exact hnd.1 (heq ▸ List.mem_map_of_mem ResumeRow.id hb)

theorem take_one_sortDescById (rows : List ResumeRow) (x : ResumeRow)
    (hmax : ∀ r ∈ rows, r.id < x.id) :
    (sortDescById (rows ++ [x])).take 1 = [x] := by
  have hperm : List.Perm (sortDescById (rows ++ [x])) (rows ++ [x]) := sortDescById_perm _
  have hsorted : (sortDescById (rows ++ [x])).Pairwise idGE := sortDescById_pairwise _
  have hx : x ∈ sortDescById (rows ++ [x]) :=
    hperm.mem_iff.mpr (List.mem_append_right rows (List.mem_singleton_self x))
  cases hl : sortDescById (rows ++ [x]) with
  | nil => rw [hl] at hx; exact absurd hx (List.not_mem_nil x)
  | cons h t =>
      rw [hl] at hperm hsorted hx
      rw [List.pairwise_cons] at hsorted
      have hh : h ∈ rows ++ [x] := hperm.mem_iff.mp (List.mem_cons_self h t)
      have hhx : h = x := by
        rcases List.mem_append.mp hh with hmem | hmem
        · exfalso
          rcases List.mem_cons.mp hx with hx' | hx'
          · exact absurd (hx' ▸ hmax h hmem) (lt_irrefl _)
          · exact absurd (lt_of_le_of_lt (hsorted.1 x hx') (hmax h hmem)) (lt_irrefl _)
        · exact List.mem_singleton.mp hmem
      simp [hhx]

/-! ### Claim theorems -/

/-- C1 counterexample: on a database where neither table exists, `init_db`
creates `resume_logs` but leaves `agent_interactions` uncreated, refuting
the claim that `init()` creates both tables. -/
theorem init_db_claim_counterexample :
    (init_db ⟨none, none, 1, 1, "2024-01-01T00:00:00"⟩ false).resume_logs = some [] ∧
      (init_db ⟨none, none, 1, 1, "2024-01-01T00:00:00"⟩ false).agent_interactions = none :=
  ⟨rfl, rfl⟩

/-- C1 (amended): `init_db` creates the `resume_logs` table if absent and
leaves it unchanged otherwise; it never touches `agent_interactions` (that
table is created lazily by `log_interaction`); it is idempotent; and a
failure during initialization is logged, not raised — the state is simply
left unchanged. -/
theorem init_db_spec (db : Db) :
    (init_db db false).resume_logs = some (db.resume_logs.getD []) ∧
      (init_db db false).agent_interactions = db.agent_interactions ∧
      init_db (init_db db false) false = init_db db false ∧
      init_db db true = db := by
  cases h : db.resume_logs with
  | none => simp [init_db, h]
  | some rows => simp [init_db, h]

/-- C3: `log_interaction` stores the row with both payloads passed through
the `[:5000]` slice: each stored payload is the first 5000 characters of
the input, hence of length at most 5000, and a 6000-character input is
stored as exactly 5000 characters. -/
theorem log_interaction_truncates (agent_name action input_data output_data : String)
    (db : Db) :
    (log_interaction agent_name action input_data output_data db false).agent_interactions
        = some (db.agent_interactions.getD [] ++
            [mkInteractionRow db agent_name action input_data output_data]) ∧
      (mkInteractionRow db agent_name action input_data output_data).input_data.data
          = input_data.data.take 5000 ∧
      (mkInteractionRow db agent_name action input_data output_data).output_data.data
          = output_data.data.take 5000 ∧
      (mkInteractionRow db agent_name action input_data output_data).input_data.length ≤ 5000 ∧
      (mkInteractionRow db agent_name action input_data output_data).output_data.length ≤ 5000 ∧
      (input_data.length = 6000 →
        (mkInteractionRow db agent_name action input_data output_data).input_data.length
          = 5000) := by
  refine ⟨by simp [log_interaction], rfl, rfl, ?_, ?_, ?_⟩
  · show (input_data.data.take 5000).length ≤ 5000
    rw [List.length_take]
    exact min_le_left _ _
  · show (output_data.data.take 5000).length ≤ 5000
    rw [List.length_take]
    exact min_le_left _ _
  · intro h6
    show (input_data.data.take 5000).length = 5000
    have hd : input_data.data.length = 6000 := h6
    rw [List.length_take, hd]
    exact min_eq_left (by norm_num)

/-- C3 witness: a concrete 6000-character payload is stored as exactly its
first 5000 characters. -/
theorem log_interaction_truncates_witness :
    (mkInteractionRow ⟨some [], none, 1, 1, "2024-01-01T00:00:00"⟩ "ParserAgent" "parse"
        ⟨List.replicate 6000 'x'⟩ "out").input_data.length = 5000 :=
  (log_interaction_truncates "ParserAgent" "parse" ⟨List.replicate 6000 'x'⟩ "out"
      ⟨some [], none, 1, 1, "2024-01-01T00:00:00"⟩).2.2.2.2.2
    (by show (List.replicate 6000 'x').length = 6000; rw [List.length_replicate])

/-- C5: every store operation converts an underlying storage failure into a
neutral result — `[]` for `get_history`, `none` for `get_resume_details`,
and an unchanged database for the writers and for `init_db` — and, with no
fault injected, a query or insert against the never-created `resume_logs`
table (the `no such table` error) is likewise caught and neutralized. -/
theorem history_store_neutral_on_failure (db : Db) (limit rid : Nat)
    (pd : ParsedData) (mr : MatchResult) (a ac ind outd : String) :
    get_history limit db true = [] ∧
      get_resume_details rid db true = none ∧
      save_to_db pd mr db true = db ∧
      log_interaction a ac ind outd db true = db ∧
      init_db db true = db ∧
      (db.resume_logs = none →
        get_history limit db false = [] ∧
        get_resume_details rid db false = none ∧
        save_to_db pd mr db false = db) := by
  refine ⟨rfl, rfl, rfl, rfl, rfl, ?_⟩
  intro h
  exact ⟨by simp [get_history, h], by simp [get_resume_details, h],
    by simp [save_to_db, h]⟩

/-- C5 witness: on a concrete database whose `resume_logs` table was never
created, `get_history` returns the empty list. -/
theorem history_store_neutral_on_failure_witness :
    get_history 10 ⟨none, none, 1, 1, "2024-01-01T00:00:00"⟩ false = [] :=
  ((history_store_neutral_on_failure ⟨none, none, 1, 1, "2024-01-01T00:00:00"⟩ 10 0
      ⟨none, none, none, none⟩ MatchResult.nonDict "a" "b" "c" "d").2.2.2.2.2 rfl).1

/-- C10: `log_interaction` issues `CREATE TABLE IF NOT EXISTS` before its
insert, so even on a database where `init_db` was never invoked (the
`agent_interactions` table is absent) the call records its row. -/
theorem log_interaction_without_init (db : Db) (a ac ind outd : String)
    (h : db.agent_interactions = none) :
    (log_interaction a ac ind outd db false).agent_interactions
      = some [mkInteractionRow db a ac ind outd] := by
  simp [log_interaction, h]

/-- C10 witness: logging against a fresh, never-initialized database
records the interaction row. -/
theorem log_interaction_without_init_witness :
    (log_interaction "ParserAgent" "parse" "in" "out"
        ⟨none, none, 1, 1, "2024-01-01T00:00:00"⟩ false).agent_interactions
      = some [mkInteractionRow ⟨none, none, 1, 1, "2024-01-01T00:00:00"⟩
          "ParserAgent" "parse" "in" "out"] :=
  log_interaction_without_init ⟨none, none, 1, 1, "2024-01-01T00:00:00"⟩
    "ParserAgent" "parse" "in" "out" rfl

/-- Appending a row whose id equals the autoincrement sequence value keeps
the ids pairwise distinct, keeps every id below the advanced sequence, and
makes the new id strictly larger than every pre-existing id. -/
theorem append_fresh_id {α : Type} (f : α → Nat) (rows : List α) (x : α) (n : Nat)
    (hnd : (rows.map f).Nodup) (hlt : ∀ r ∈ rows, f r < n) (hx : f x = n) :
    ((rows ++ [x]).map f).Nodup ∧ (∀ r ∈ rows ++ [x], f r < n + 1) ∧
      ∀ r ∈ rows, f r < f x := by
  refine ⟨?_, ?_, ?_⟩
  · rw [List.map_append, List.nodup_append]
    refine ⟨hnd, by simp, ?_⟩
    intro a ha hb
    obtain ⟨r, hr, hfr⟩ := List.mem_map.mp ha
    have hb' : a = f x := by simpa using hb
    have hra := hlt r hr
    rw [hfr] at hra
    rw [hb', hx] at hra
    exact absurd hra (lt_irrefl n)
  · intro r hr
    rcases List.mem_append.mp hr with h | h
    · exact Nat.lt_succ_of_lt (hlt r h)
    · have hrx : r = x := by simpa using h
      rw [hrx, hx]
      exact Nat.lt_succ_self n
  · intro r hr
    rw [hx]
    exact hlt r hr

/-- C4: when the `resume_logs` table holds `rows` (with the ids pairwise
distinct, as enforced by the `INTEGER PRIMARY KEY`), `get_history limit`
returns at most `limit` records, in strictly descending id order, all drawn
from the table, such that every record left out has a smaller id than every
record returned; and when the table has at least `limit` rows, exactly
`limit` records are returned. -/
theorem get_history_spec (db : Db) (rows : List ResumeRow) (limit : Nat)
    (htab : db.resume_logs = some rows)
    (hnd : (rows.map ResumeRow.id).Nodup) :
    (get_history limit db false).length ≤ limit ∧
      (get_history limit db false).Pairwise (fun a b => b.id < a.id) ∧
      (∀ r ∈ get_history limit db false, r ∈ rows) ∧
      (∀ r ∈ get_history limit db false, ∀ s ∈ rows,
        s ∉ get_history limit db false → s.id < r.id) ∧
      (limit ≤ rows.length → (get_history limit db false).length = limit) := by
  have hg : get_history limit db false = (sortDescById rows).take limit := by
    simp [get_history, htab]
  have hperm : List.Perm (sortDescById rows) rows := sortDescById_perm rows
  have hsorted : (sortDescById rows).Pairwise idGE := sortDescById_pairwise rows
  have hndl : ((sortDescById rows).map ResumeRow.id).Nodup :=
    (hperm.map ResumeRow.id).nodup_iff.mpr hnd
  have hsplit : (sortDescById rows).take limit ++ (sortDescById rows).drop limit
      = sortDescById rows := List.take_append_drop limit (sortDescById rows)
  have hpw : ((sortDescById rows).take limit ++ (sortDescById rows).drop limit).Pairwise idGE := by
    rw [hsplit]; exact hsorted
  have hcross := (List.pairwise_append.mp hpw).2.2
  have hndapp : (((sortDescById rows).take limit).map ResumeRow.id ++
      ((sortDescById rows).drop limit).map ResumeRow.id).Nodup := by
    rw [← List.map_append, hsplit]; exact hndl
  have hndtake := (List.nodup_append.mp hndapp).1
  have hdisj := (List.nodup_append.mp hndapp).2.2
  refine ⟨?_, ?_, ?_, ?_, ?_⟩
  · rw [hg, List.length_take]
    exact min_le_left _ _
  · rw [hg]
    refine pairwise_lt_of_le_nodup _ ?_ hndtake
    exact List.Pairwise.sublist (List.take_sublist _ _) hsorted
  · intro r hr
    rw [hg] at hr
    exact hperm.mem_iff.mp (List.mem_of_mem_take hr)
  · intro r hr s hs hns
    rw [hg] at hr hns
    have hsl : s ∈ sortDescById rows := hperm.mem_iff.mpr hs
    have hsplit' : s ∈ (sortDescById rows).take limit ∨
        s ∈ (sortDescById rows).drop limit := by
      rw [← List.mem_append, hsplit]; exact hsl
    have hsd : s ∈ (sortDescById rows).drop limit := hsplit'.resolve_left hns
    have hle : s.id ≤ r.id := hcross r hr s hsd
    refine lt_of_le_of_ne hle ?_
    intro heq
    exact hdisj (List.mem_map_of_mem ResumeRow.id hr)
      (heq ▸ List.mem_map_of_mem ResumeRow.id hsd)
  · intro hlim
    rw [hg, List.length_take, hperm.length_eq]
    exact min_eq_left hlim

def sampleRow1 : ResumeRow :=
  ⟨1, "2024-01-01T00:00:00", "Ada", "python,sql", "BSc", "5 years", 80, "Dev", "solid", "Dev"⟩

def sampleRow2 : ResumeRow :=
  ⟨2, "2024-01-02T00:00:00", "Bob", "go", "MSc", "3 years", 70, "DBA", "fine", "DBA"⟩

def sampleDb : Db :=
  ⟨some [sampleRow1, sampleRow2], none, 3, 1, "2024-01-03T00:00:00"⟩

def pdSample : ParsedData :=
  ⟨some "Cara", some (SkillsVal.list ["go", "rust"]), some "PhD", some "7 years"⟩

def mrSample : MatchResult :=
  MatchResult.dict ⟨some 90, some ["SRE", "DevOps"], some "SRE", some "strong"⟩

/-- C4 witness: on a concrete two-row table, `get_history 1` returns at
most one record. -/
theorem get_history_spec_witness :
    (get_history 1 sampleDb false).length ≤ 1 :=
  (get_history_spec sampleDb [sampleRow1, sampleRow2] 1 rfl (by decide)).1

/-- C6: on a well-formed database, both insert operations preserve id
distinctness and the id bound; the inserted row's id is drawn from the
table's autoincrement sequence and is strictly larger than every
pre-existing id, and its timestamp is the store's clock value — the caller
supplies neither, since neither insert takes an id or timestamp
argument. -/
theorem insert_id_timestamp_invariant (db : Db) (hwf : DbWF db)
    (pd : ParsedData) (mr : MatchResult) (a ac ind outd : String) :
    DbWF (save_to_db pd mr db false) ∧
      DbWF (log_interaction a ac ind outd db false) ∧
      (mkResumeRow db pd mr).id = db.nextResumeId ∧
      (mkResumeRow db pd mr).timestamp = db.now ∧
      (mkInteractionRow db a ac ind outd).id = db.nextInteractionId ∧
      (mkInteractionRow db a ac ind outd).timestamp = db.now ∧
      (∀ rows, db.resume_logs = some rows →
        (save_to_db pd mr db false).resume_logs = some (rows ++ [mkResumeRow db pd mr]) ∧
          ∀ r ∈ rows, r.id < (mkResumeRow db pd mr).id) ∧
      (∀ rows, db.agent_interactions = some rows →
        (log_interaction a ac ind outd db false).agent_interactions
            = some (rows ++ [mkInteractionRow db a ac ind outd]) ∧
          ∀ r ∈ rows, r.id < (mkInteractionRow db a ac ind outd).id) := by
  refine ⟨?_, ?_, rfl, rfl, rfl, rfl, ?_, ?_⟩
  · cases htab : db.resume_logs with
    | none => simpa [save_to_db, htab] using hwf
    | some rows =>
        have hw := hwf.1 rows htab
        have hfresh := append_fresh_id ResumeRow.id rows (mkResumeRow db pd mr)
          db.nextResumeId hw.1 hw.2 rfl
        constructor
        · intro rows' h'
          have h'' : some (rows ++ [mkResumeRow db pd mr]) = some rows' := by
            rw [← h']; simp [save_to_db, htab]
          cases Option.some.inj h''
          exact ⟨hfresh.1, by simpa [save_to_db, htab] using hfresh.2.1⟩
        · intro rows' h'
          have h'' : db.agent_interactions = some rows' := by
            rw [← h']; simp [save_to_db, htab]
          have hw2 := hwf.2 rows' h''
          exact ⟨hw2.1, by simpa [save_to_db, htab] using hw2.2⟩
  · constructor
    · intro rows' h'
      have h'' : db.resume_logs = some rows' := by
        rw [← h']; simp [log_interaction]
      have hw1 := hwf.1 rows' h''
      exact ⟨hw1.1, by simpa [log_interaction] using hw1.2⟩
    · intro rows' h'
      have hw : ((db.agent_interactions.getD []).map InteractionRow.id).Nodup ∧
          ∀ r ∈ db.agent_interactions.getD [], r.id < db.nextInteractionId := by
        cases htab : db.agent_interactions with
        | none => simp
        | some rows => simpa using hwf.2 rows htab
      have hfresh := append_fresh_id InteractionRow.id (db.agent_interactions.getD [])
        (mkInteractionRow db a ac ind outd) db.nextInteractionId hw.1 hw.2 rfl
      have h'' : some (db.agent_interactions.getD [] ++ [mkInteractionRow db a ac ind outd])
          = some rows' := by
        rw [← h']; simp [log_interaction]
      cases Option.some.inj h''
      exact ⟨hfresh.1, by simpa [log_interaction] using hfresh.2.1⟩
  · intro rows htab
    have hw := hwf.1 rows htab
    refine ⟨by simp [save_to_db, htab], ?_⟩
    exact (append_fresh_id ResumeRow.id rows (mkResumeRow db pd mr)
      db.nextResumeId hw.1 hw.2 rfl).2.2
  · intro rows htab
    have hw := hwf.2 rows htab
    refine ⟨by simp [log_interaction, htab], ?_⟩
    exact (append_fresh_id InteractionRow.id rows (mkInteractionRow db a ac ind outd)
      db.nextInteractionId hw.1 hw.2 rfl).2.2

/-- C6 witness: inserting into a concrete well-formed database appends a
row whose id is the sequence value 3 and whose timestamp is the store's
clock. -/
theorem insert_id_timestamp_invariant_witness :
    (save_to_db pdSample mrSample sampleDb false).resume_logs
      = some ([sampleRow1, sampleRow2] ++ [mkResumeRow sampleDb pdSample mrSample]) :=
  ((insert_id_timestamp_invariant sampleDb
      ⟨fun rows h => by cases Option.some.inj h; decide,
       fun rows h => Option.noConfusion h⟩
      pdSample mrSample "a" "b" "c" "d").2.2.2.2.2.2.1 [sampleRow1, sampleRow2] rfl).1

/-- C7: on a database whose `resume_logs` table exists and is well formed,
`save_to_db` followed by `get_history 1` returns exactly the inserted
record as the most recent entry, and that record's id and timestamp were
populated by the store (the autoincrement sequence and the store clock). -/
theorem save_then_get_history_roundtrip (db : Db) (rows : List ResumeRow)
    (pd : ParsedData) (mr : MatchResult)
    (htab : db.resume_logs = some rows)
    (hlt : ∀ r ∈ rows, r.id < db.nextResumeId) :
    get_history 1 (save_to_db pd mr db false) false = [mkResumeRow db pd mr] ∧
      (mkResumeRow db pd mr).id = db.nextResumeId ∧
      (mkResumeRow db pd mr).timestamp = db.now := by
  have hsave : (save_to_db pd mr db false).resume_logs
      = some (rows ++ [mkResumeRow db pd mr]) := by
    simp [save_to_db, htab]
  refine ⟨?_, rfl, rfl⟩
  have hgh : get_history 1 (save_to_db pd mr db false) false
      = (sortDescById (rows ++ [mkResumeRow db pd mr])).take 1 := by
    simp [get_history, hsave]
  rw [hgh]
  exact take_one_sortDescById rows _ (fun r hr => hlt r hr)

/-- C7 witness: the round trip on a concrete two-row database returns the
freshly inserted record. -/
theorem save_then_get_history_roundtrip_witness :
    get_history 1 (save_to_db pdSample mrSample sampleDb false) false
      = [mkResumeRow sampleDb pdSample mrSample] :=
  (save_then_get_history_roundtrip sampleDb [sampleRow1, sampleRow2]
      pdSample mrSample rfl (by decide)).1

/-- C8: Gemini key validation is true iff the key is non-null, non-empty,
carries the literal prefix `"AIza"` and has length at least 30; `None` and
`""` return false, and a 34-character key with the wrong prefix (`"BIza"`)
returns false. -/
theorem validate_gemini_key_spec :
    (∀ s : String, validate_gemini_key (some s) = true ↔
        (s.data ≠ [] ∧ "AIza".data.isPrefixOf s.data = true ∧ 30 ≤ s.length)) ∧
      validate_gemini_key none = false ∧
      validate_gemini_key (some "") = false ∧
      validate_gemini_key (some ⟨'A' :: 'I' :: 'z' :: 'a' :: List.replicate 30 'x'⟩) = true ∧
      validate_gemini_key (some ⟨'B' :: 'I' :: 'z' :: 'a' :: List.replicate 30 'x'⟩) = false := by
  refine ⟨?_, rfl, by decide, by decide, by decide⟩
  intro s
  simp [validate_gemini_key, and_assoc]

/-- C2: Mistral key validation is true iff the key is non-null, wholly
alphanumeric (hence free of whitespace and special punctuation) and of
length at least the fixed minimum 32; every key containing a space or `'!'`
is rejected, every key shorter than the minimum is rejected, every
32-character alphanumeric key — in particular a lowercase one — is
accepted, and `None` and `""` return false. -/
theorem validate_mistral_key_spec :
    (∀ s : String, validate_mistral_key (some s) = true ↔
        (s.data.all Char.isAlphanum = true ∧ 32 ≤ s.length)) ∧
      (∀ s : String, (' ' ∈ s.data ∨ '!' ∈ s.data) →
        validate_mistral_key (some s) = false) ∧
      (∀ s : String, s.length < 32 → validate_mistral_key (some s) = false) ∧
      (∀ s : String, s.length = 32 → s.data.all Char.isAlphanum = true →
        validate_mistral_key (some s) = true) ∧
      validate_mistral_key none = false ∧
      validate_mistral_key (some "") = false := by
  refine ⟨?_, ?_, ?_, ?_, rfl, by decide⟩
  · intro s
    simp [validate_mistral_key]
  · intro s h
    have hall : s.data.all Char.isAlphanum = false := by
      rw [List.all_eq_false]
      rcases h with h | h
      · exact ⟨' ', h, by decide⟩
      · exact ⟨'!', h, by decide⟩
    simp [validate_mistral_key, hall]
  · intro s h
    have hdec : decide (32 ≤ s.length) = false := decide_eq_false (by omega)
    simp [validate_mistral_key, hdec]
  · intro s h32 hall
    simp only [validate_mistral_key, Bool.and_eq_true, decide_eq_true_eq]
    exact ⟨hall, by omega⟩

/-- C2 witness: the test suite's 32-character lowercase alphanumeric key is
accepted, and a key containing spaces and `'!'` is rejected. -/
theorem validate_mistral_key_spec_witness :
    validate_mistral_key (some "abcdefghijklmnopqrstuvwxyz123456") = true ∧
      validate_mistral_key (some "key with spaces and special chars!") = false :=
  ⟨validate_mistral_key_spec.2.2.2.1 "abcdefghijklmnopqrstuvwxyz123456"
      (by decide) (by decide),
    validate_mistral_key_spec.2.1 "key with spaces and special chars!"
      (Or.inl (by decide))⟩

/-- C9: `validate_config` reports `valid = true` iff at least one AI
provider validates; for the empty configuration it reports `valid = false`
with no providers and an error mentioning `"No valid AI providers"`; and an
email misconfiguration alone never changes `valid` — it only omits
`"email_reports"` from `features_enabled`. -/
theorem validate_config_spec :
    (∀ c : Config, (validate_config c).valid = true ↔
        (validate_config c).ai_providers ≠ []) ∧
      ((validate_config ⟨none, none, none, none⟩).valid = false ∧
        (validate_config ⟨none, none, none, none⟩).ai_providers = [] ∧
        "No valid AI providers configured" ∈
          (validate_config ⟨none, none, none, none⟩).errors) ∧
      (∀ g m e p e' p', (validate_config ⟨g, m, e, p⟩).valid
          = (validate_config ⟨g, m, e', p'⟩).valid) ∧
      (∀ c : Config, validate_email_config c.sender_email c.sender_password = false →
        "email_reports" ∉ (validate_config c).features_enabled) := by
  refine ⟨?_, by decide, ?_, ?_⟩
  · intro c
    simp [validate_config]
  · intro g m e p e' p'
    rfl
  · intro c h
    simp [validate_config, h]

/-- C9 witness: with a valid Gemini key and no email configuration, the
config is valid yet `email_reports` is not enabled. -/
theorem validate_config_spec_witness :
    "email_reports" ∉ (validate_config ⟨some ⟨'A' :: 'I' :: 'z' :: 'a' ::
        List.replicate 30 'x'⟩, none, none, none⟩).features_enabled :=
  validate_config_spec.2.2.2
    ⟨some ⟨'A' :: 'I' :: 'z' :: 'a' :: List.replicate 30 'x'⟩, none, none, none⟩ rfl

end JobSniper
